import Mathlib

/-!
Shallow embedding of the resource-locking service: the lock routes
(`routes/resourceRoutes.js`), the request-validation middleware
(`middleware/validation.js`) and the periodic expiry sweep (`app.js`).

Timestamps are modelled as `Int` milliseconds (JavaScript `Date.now()`),
the MongoDB collection as a `List Lease`, and each HTTP handler as a pure
function from the store state (plus the current clock) to a result value
carrying the HTTP status and the updated store.  The mongoose model file
`models/ResourceLock.js` is not part of the sources; its members
(`getLockInfo`, `extendLock`, the unique index on `resourceName`, the
`lockedAt` default) are modelled from the spec where noted.
-/

namespace ResourceLocking

/-- A persisted lock record (document of the `ResourceLock` collection).
`metadata` is flattened into its four fields. -/
structure Lease where
  id : Nat
  resourceName : String
  lockedBy : String
  lockType : String
  lockedAt : Int
  expiresAt : Int
  lockDuration : Int
  clientIp : String
  userAgent : String
  sessionId : String
  purpose : String
deriving Repr, DecidableEq

/-- The MongoDB collection of lock documents. -/
abbrev Store := List Lease

/-- Modelled from the spec: `ResourceLock.getLockInfo` lives in the missing
`models/ResourceLock.js`.  Per §4.2 of the spec, every read path
"restricts to leases where `expiresAt > now`", so the lookup returns the
record for `r` only when it has not yet expired. -/
def getLockInfo (store : Store) (now : Int) (r : String) : Option Lease :=
  store.find? (fun l => l.resourceName == r && decide (now < l.expiresAt))

/-- The character class of the Joi pattern `/^[a-zA-Z0-9._-]+$/`. -/
def allowedChar (c : Char) : Bool :=
  (('a' ≤ c && c ≤ 'z') || ('A' ≤ c && c ≤ 'Z') || ('0' ≤ c && c ≤ '9')
    || c == '.' || c == '_' || c == '-')

/-- The request body of `POST /lock` as received, before validation:
every field may be absent. -/
structure RawLockRequest where
  resourceName : Option String
  lockedBy : Option String
  lockDuration : Option Int
  lockType : Option String
  purpose : Option String
  sessionId : Option String
deriving Repr, DecidableEq

/-- The validated body, with the schema defaults filled in. -/
structure LockRequestBody where
  resourceName : String
  lockedBy : String
  lockDuration : Int
  lockType : String
  purpose : String
  sessionId : String
deriving Repr, DecidableEq

/-- `lockRequestSchema`: errors contributed by the `resourceName` rules
(`required`, `min(1)`, `max(255)`, the character pattern). -/
def resourceNameErrors (v : Option String) : List String :=
  match v with
  | none => ["\"resourceName\" is required"]
  | some s =>
    (if s.length < 1 then ["\"resourceName\" is not allowed to be empty"] else [])
      ++ (if 255 < s.length then
            ["\"resourceName\" length must be less than or equal to 255 characters long"]
          else [])
      ++ (if s.toList.all allowedChar then []
          else ["Resource name can only contain alphanumeric characters, dots, hyphens, and underscores"])

/-- `lockRequestSchema`: errors contributed by the `lockedBy` rules
(`required`, `min(1)`, `max(100)`). -/
def lockedByErrors (v : Option String) : List String :=
  match v with
  | none => ["\"lockedBy\" is required"]
  | some s =>
    (if s.length < 1 then ["\"lockedBy\" is not allowed to be empty"] else [])
      ++ (if 100 < s.length then
            ["\"lockedBy\" length must be less than or equal to 100 characters long"]
          else [])

/-- `lockRequestSchema`: errors contributed by the `lockDuration` rules
(`integer`, `min(1)`, `max(86400)`); the field is optional. -/
def lockDurationErrors (v : Option Int) : List String :=
  match v with
  | none => []
  | some d =>
    (if d < 1 then ["\"lockDuration\" must be greater than or equal to 1"] else [])
      ++ (if 86400 < d then
            ["\"lockDuration\" must be less than or equal to 86400"]
          else [])

/-- `lockRequestSchema`: the `lockType` rule (`valid('read','write','exclusive')`). -/
def lockTypeErrors (v : Option String) : List String :=
  match v with
  | none => []
  | some s =>
    if s == "read" || s == "write" || s == "exclusive" then []
    else ["\"lockType\" must be one of [read, write, exclusive]"]

/-- `lockRequestSchema`: the `purpose` rule (`max(255)`). -/
def purposeErrors (v : Option String) : List String :=
  match v with
  | none => []
  | some s =>
    if 255 < s.length then
      ["\"purpose\" length must be less than or equal to 255 characters long"]
    else []

/-- `lockRequestSchema`: the `sessionId` rule (`max(100)`). -/
def sessionIdErrors (v : Option String) : List String :=
  match v with
  | none => []
  | some s =>
    if 100 < s.length then
      ["\"sessionId\" length must be less than or equal to 100 characters long"]
    else []

/-- All validation errors of `lockRequestSchema.validate` for a raw body. -/
def lockRequestErrors (raw : RawLockRequest) : List String :=
  resourceNameErrors raw.resourceName ++ lockedByErrors raw.lockedBy
    ++ lockDurationErrors raw.lockDuration ++ lockTypeErrors raw.lockType
    ++ purposeErrors raw.purpose ++ sessionIdErrors raw.sessionId

/-- The schema defaults (`lockDuration` 300, `lockType` `exclusive`,
empty `purpose` and `sessionId`) applied to a raw body. -/
def applyLockDefaults (raw : RawLockRequest) : LockRequestBody :=
  { resourceName := raw.resourceName.getD ""
    lockedBy := raw.lockedBy.getD ""
    lockDuration := raw.lockDuration.getD 300
    lockType := raw.lockType.getD "exclusive"
    purpose := raw.purpose.getD ""
    sessionId := raw.sessionId.getD "" }

/-- `validateLockRequest` middleware: on schema error, respond 400 with the
field messages; otherwise hand the defaulted value to the route. -/
def validateLockRequest (raw : RawLockRequest) : Except (List String) LockRequestBody :=
  match lockRequestErrors raw with
  | [] => .ok (applyLockDefaults raw)
  | errs => .error errs

/-- Modelled from the spec: the store's "atomic insert-if-absent-by-key"
primitive (§4.1), realised in the missing `models/ResourceLock.js` by a
unique index on `resourceName`; a duplicate key raises the E11000 error
that the route catches.  `none` models that rejection. -/
def insertIfAbsent (store : Store) (l : Lease) : Option Store :=
  if store.any (fun x => x.resourceName == l.resourceName) then none
  else some (l :: store)

/-- The new document built by `POST /lock`:
`expiresAt = Date.now() + lockDuration * 1000`.  The `lockedAt` default
(acquisition instant) is modelled from the spec (§3: `acquiredAt`
timestamp), as the mongoose schema is not among the sources. -/
def mkLease (id : Nat) (now : Int) (body : LockRequestBody)
    (clientIp userAgent : String) : Lease :=
  { id := id
    resourceName := body.resourceName
    lockedBy := body.lockedBy
    lockType := body.lockType
    lockedAt := now
    expiresAt := now + body.lockDuration * 1000
    lockDuration := body.lockDuration
    clientIp := clientIp
    userAgent := userAgent
    sessionId := body.sessionId
    purpose := body.purpose }

/-- Outcome of `POST /lock`. -/
inductive LockResult where
  | validationError (errors : List String)
  | conflictExisting (existing : Lease)
  | conflictDuplicate
  | created (lease : Lease)
deriving Repr, DecidableEq

/-- HTTP status of a `POST /lock` outcome. -/
def LockResult.status : LockResult → Nat
  | .validationError _ => 400
  | .conflictExisting _ => 409
  | .conflictDuplicate => 409
  | .created _ => 201

/-- The `router.post('/lock')` handler after validation.  The pre-check and
the insert read the store at two instants (`storeAtCheck`, `storeAtInsert`),
which may differ when a concurrent writer runs in between; the sequential
execution is the special case `storeAtCheck = storeAtInsert`.  A duplicate-key
rejection of the insert (`error.code === 11000`) is answered with 409. -/
def lockRoute (storeAtCheck storeAtInsert : Store) (now : Int) (id : Nat)
    (body : LockRequestBody) (clientIp userAgent : String) : LockResult × Store :=
  match getLockInfo storeAtCheck now body.resourceName with
  | some existing => (.conflictExisting existing, storeAtInsert)
  | none =>
    let newLock := mkLease id now body clientIp userAgent
    match insertIfAbsent storeAtInsert newLock with
    | none => (.conflictDuplicate, storeAtInsert)
    | some s => (.created newLock, s)

/-- `POST /lock` end to end: validation middleware then the route, with no
concurrent writer. -/
def postLock (store : Store) (now : Int) (id : Nat) (raw : RawLockRequest)
    (clientIp userAgent : String) : LockResult × Store :=
  match validateLockRequest raw with
  | .error errs => (.validationError errs, store)
  | .ok body => lockRoute store store now id body clientIp userAgent

/-- Outcome of `POST /unlock`. -/
inductive UnlockResult where
  | notFound
  | unlocked (resourceName lockedBy : String)
deriving Repr, DecidableEq

/-- HTTP status of a `POST /unlock` outcome. -/
def UnlockResult.status : UnlockResult → Nat
  | .notFound => 404
  | .unlocked _ _ => 200

/-- `router.post('/unlock')`: `findOne` on resourceName, lockedBy and
`expiresAt > now`; 404 when absent, else `deleteOne` by `_id`. -/
def postUnlock (store : Store) (now : Int) (resourceName lockedBy : String) :
    UnlockResult × Store :=
  match store.find? (fun l =>
      l.resourceName == resourceName && l.lockedBy == lockedBy
        && decide (now < l.expiresAt)) with
  | none => (.notFound, store)
  | some lock =>
    (.unlocked resourceName lockedBy, store.eraseP (fun l => l.id == lock.id))

/-- Modelled from the spec: `lock.extendLock` lives in the missing
`models/ResourceLock.js`; per §4.1 of the spec, "On success,
`expiresAt += additionalSeconds`". -/
def extendLock (l : Lease) (additionalSeconds : Int) : Lease :=
  { l with expiresAt := l.expiresAt + additionalSeconds * 1000 }

/-- The request body of `PUT /:resourceName/extend`; no validation
middleware guards this route, so `additionalSeconds` is any number the
JSON body carries, defaulting to 300 when absent. -/
structure RawExtendRequest where
  lockedBy : String
  additionalSeconds : Option Int
deriving Repr, DecidableEq

/-- Outcome of `PUT /:resourceName/extend`. -/
inductive ExtendResult where
  | notFound
  | extended (lease : Lease) (extendedBy : Int)
deriving Repr, DecidableEq

/-- HTTP status of an extend outcome. -/
def ExtendResult.status : ExtendResult → Nat
  | .notFound => 404
  | .extended _ _ => 200

/-- `router.put('/:resourceName/extend')`: `findOne` on resourceName,
lockedBy and `expiresAt > now`; 404 when absent, else persist the
extended record. -/
def putExtend (store : Store) (now : Int) (resourceName : String)
    (raw : RawExtendRequest) : ExtendResult × Store :=
  let additionalSeconds := raw.additionalSeconds.getD 300
  match store.find? (fun l =>
      l.resourceName == resourceName && l.lockedBy == raw.lockedBy
        && decide (now < l.expiresAt)) with
  | none => (.notFound, store)
  | some lock =>
    let updated := extendLock lock additionalSeconds
    (.extended updated additionalSeconds,
      store.map (fun l => if l.id == lock.id then updated else l))

/-- Outcome of `DELETE /:resourceName/force-unlock`. -/
inductive ForceUnlockResult where
  | unauthorized
  | notFound
  | unlocked (resourceName : String)
deriving Repr, DecidableEq

/-- HTTP status of a force-unlock outcome. -/
def ForceUnlockResult.status : ForceUnlockResult → Nat
  | .unauthorized => 403
  | .notFound => 404
  | .unlocked _ => 200

/-- `router.delete('/:resourceName/force-unlock')`: compare the body's
`adminKey` with `process.env.ADMIN_KEY` (either may be absent); on
mismatch 403 before any store access, else `deleteOne` keyed only on
`resourceName`, 404 when nothing was deleted. -/
def forceUnlock (store : Store) (envAdminKey adminKey : Option String)
    (resourceName : String) : ForceUnlockResult × Store :=
  if adminKey ≠ envAdminKey then (.unauthorized, store)
  else if store.any (fun l => l.resourceName == resourceName) then
    (.unlocked resourceName, store.eraseP (fun l => l.resourceName == resourceName))
  else (.notFound, store)

/-- Outcome of `GET /:resourceName`. -/
inductive StatusResult where
  | available (resourceName : String)
  | locked (lease : Lease)
deriving Repr, DecidableEq

/-- `router.get('/:resourceName')`: lazy-expiry lookup, `Available` when no
active lease exists. -/
def getStatus (store : Store) (now : Int) (r : String) : StatusResult :=
  match getLockInfo store now r with
  | none => .available r
  | some l => .locked l

/-- `i`-flagged regex test of `needle` against `hay`, as a plain
case-insensitive substring match. -/
def containsCI (hay needle : String) : Bool :=
  let h := hay.toLower.toList
  let n := needle.toLower.toList
  (List.range (h.length + 1)).any (fun i => n.isPrefixOf (h.drop i))

/-- The `GET /` query: `expiresAt > now` composed with the optional
`lockedBy` (case-insensitive regex) and `lockType` filters. -/
def listQueryFilter (now : Int) (lockedByFilter lockTypeFilter : Option String)
    (l : Lease) : Bool :=
  decide (now < l.expiresAt)
    && (match lockedByFilter with
        | none => true
        | some s => containsCI l.lockedBy s)
    && (match lockTypeFilter with
        | none => true
        | some s => l.lockType == s)

/-- `router.get('/')`: filter, sort by `lockedAt` descending, then
`skip((page-1)*limit)` and `limit(limit)`. -/
def getResources (store : Store) (now : Int) (page limit : Nat)
    (lockedByFilter lockTypeFilter : Option String) : List Lease :=
  (((store.filter (listQueryFilter now lockedByFilter lockTypeFilter)).mergeSort
      (fun a b => decide (b.lockedAt ≤ a.lockedAt))).drop ((page - 1) * limit)).take
    limit

/-- The `setInterval` sweep in `app.js`:
`deleteMany({ expiresAt: { $lt: now } })`, returning the surviving store
and the deleted count. -/
def sweep (store : Store) (now : Int) : Store × Nat :=
  (store.filter (fun l => !decide (l.expiresAt < now)),
    store.countP (fun l => decide (l.expiresAt < now)))

/-! Concrete data used by witnesses and counterexamples. -/

/-- A lease on `"r"` held by `"a"`, active until t = 10000 ms. -/
def sampleLease : Lease :=
  { id := 1, resourceName := "r", lockedBy := "a", lockType := "exclusive",
    lockedAt := 0, expiresAt := 10000, lockDuration := 10,
    clientIp := "ip", userAgent := "ua", sessionId := "", purpose := "" }

/-- A lease on `"r"` that expired at t = 500 ms. -/
def expiredLease : Lease :=
  { id := 2, resourceName := "r", lockedBy := "b", lockType := "write",
    lockedAt := 0, expiresAt := 500, lockDuration := 1,
    clientIp := "ip", userAgent := "ua", sessionId := "", purpose := "" }

/-- A validated lock body asking for `"r"`. -/
def sampleBody : LockRequestBody :=
  { resourceName := "r", lockedBy := "c", lockDuration := 5,
    lockType := "exclusive", purpose := "", sessionId := "" }

/-! Theorems for the claims. -/

/-- C1: if the Acquire pre-check passed but the store's atomic insert is
rejected because a record keyed by the requested resource name already
exists (a concurrent writer won the race), the handler answers with the
same Conflict result, HTTP 409, not a fault or a 5xx. -/
theorem acquire_duplicate_key_is_conflict
    (storeAtCheck storeAtInsert : Store) (now : Int) (id : Nat)
    (body : LockRequestBody) (ip ua : String)
    (hpre : getLockInfo storeAtCheck now body.resourceName = none)
    (hdup : ∃ l ∈ storeAtInsert, l.resourceName = body.resourceName) :
    (lockRoute storeAtCheck storeAtInsert now id body ip ua).fst
        = .conflictDuplicate ∧
    (lockRoute storeAtCheck storeAtInsert now id body ip ua).fst.status = 409 := by
  obtain ⟨l, hl, hname⟩ := hdup
  have hany : storeAtInsert.any
      (fun x => x.resourceName == (mkLease id now body ip ua).resourceName) = true :=
    List.any_eq_true.mpr ⟨l, hl, by simp [mkLease, hname]⟩
  unfold lockRoute
  rw [hpre]
  simp [insertIfAbsent, hany, LockResult.status]

/-- C1 witness: concrete race where the pre-check saw an empty store and a
writer inserted a record on `"r"` before the insert. -/
theorem acquire_duplicate_key_is_conflict_witness :
    getLockInfo [] 0 sampleBody.resourceName = none ∧
    (∃ l ∈ [sampleLease], l.resourceName = sampleBody.resourceName) ∧
    (lockRoute [] [sampleLease] 0 7 sampleBody "ip" "ua").fst.status = 409 :=
  ⟨rfl, ⟨sampleLease, by decide, rfl⟩,
    (acquire_duplicate_key_is_conflict [] [sampleLease] 0 7 sampleBody "ip" "ua"
      rfl ⟨sampleLease, by decide, rfl⟩).2⟩

/-- C2: a record whose `expiresAt ≤ now` is treated as absent by every
read path: when every record named `r` is expired, `GetStatus r` returns
Available and the acquisition pre-check sees nothing; and the paginated
listing only ever contains unexpired records. -/
theorem lazy_expiry_read_paths (store : Store) (now : Int) (r : String)
    (hall : ∀ l ∈ store, l.resourceName = r → l.expiresAt ≤ now) :
    getStatus store now r = .available r ∧
    getLockInfo store now r = none ∧
    ∀ page limit fLockedBy fLockType l,
      l ∈ getResources store now page limit fLockedBy fLockType →
        now < l.expiresAt := by
  have hfind : getLockInfo store now r = none := by
    refine List.find?_eq_none.mpr (fun l hl => ?_)
    by_cases h1 : l.resourceName = r
    · have h2 := hall l hl h1
      simp [h1, not_lt.mpr h2]
    · simp [h1]
  refine ⟨?_, hfind, ?_⟩
  · unfold getStatus
    rw [hfind]
  · intro page limit fB fT l hmem
    have h1 : l ∈ ((store.filter (listQueryFilter now fB fT)).mergeSort
        (fun a b => decide (b.lockedAt ≤ a.lockedAt))).drop ((page - 1) * limit) :=
      List.mem_of_mem_take hmem
    have h2 : l ∈ (store.filter (listQueryFilter now fB fT)).mergeSort
        (fun a b => decide (b.lockedAt ≤ a.lockedAt)) :=
      List.mem_of_mem_drop h1
    have h3 : l ∈ store.filter (listQueryFilter now fB fT) :=
      List.mem_mergeSort.mp h2
    have h4 := List.of_mem_filter h3
    simp [listQueryFilter] at h4
    exact h4.1.1

/-- C2 witness: a store holding only an expired record on `"r"`,
inspected at t = 20000 ms. -/
theorem lazy_expiry_read_paths_witness :
    (∀ l ∈ [expiredLease], l.resourceName = "r" → l.expiresAt ≤ 20000) ∧
    getStatus [expiredLease] 20000 "r" = .available "r" :=
  ⟨by decide, (lazy_expiry_read_paths [expiredLease] 20000 "r" (by decide)).1⟩

/-- C3: a Release request by `ownerA` when every active lease on `r` is
held by `ownerB ≠ ownerA` fails with NotFound (404) and leaves the store
untouched. -/
theorem release_wrong_owner_not_found (store : Store) (now : Int)
    (r ownerA ownerB : String) (hne : ownerA ≠ ownerB)
    (_hex : ∃ l ∈ store, l.resourceName = r ∧ now < l.expiresAt ∧ l.lockedBy = ownerB)
    (hholder : ∀ l ∈ store, l.resourceName = r → now < l.expiresAt → l.lockedBy = ownerB) :
    (postUnlock store now r ownerA).fst = .notFound ∧
    (postUnlock store now r ownerA).fst.status = 404 ∧
    (postUnlock store now r ownerA).snd = store := by
  have hfind : store.find? (fun l =>
      l.resourceName == r && l.lockedBy == ownerA && decide (now < l.expiresAt)) = none := by
    refine List.find?_eq_none.mpr (fun l hl => ?_)
    by_cases h1 : l.resourceName = r
    · by_cases h2 : now < l.expiresAt
      · have hb := hholder l hl h1 h2
        simp [h1, h2, hb, Ne.symm hne]
      · simp [h2]
    · simp [h1]
  unfold postUnlock
  rw [hfind]
  exact ⟨rfl, rfl, rfl⟩

/-- C3 witness: `"x"` tries to release `"r"` while `"a"` holds it. -/
theorem release_wrong_owner_not_found_witness :
    ("x" : String) ≠ "a" ∧
    (∃ l ∈ [sampleLease], l.resourceName = "r" ∧ (0:Int) < l.expiresAt ∧ l.lockedBy = "a") ∧
    (∀ l ∈ [sampleLease], l.resourceName = "r" → (0:Int) < l.expiresAt → l.lockedBy = "a") ∧
    (postUnlock [sampleLease] 0 "r" "x").fst.status = 404 ∧
    (postUnlock [sampleLease] 0 "r" "x").snd = [sampleLease] := by
  refine ⟨by decide, ⟨sampleLease, by decide, by decide⟩, by decide, ?_, ?_⟩
  · exact (release_wrong_owner_not_found [sampleLease] 0 "r" "x" "a" (by decide)
      ⟨sampleLease, by decide, by decide⟩ (by decide)).2.1
  · exact (release_wrong_owner_not_found [sampleLease] 0 "r" "x" "a" (by decide)
      ⟨sampleLease, by decide, by decide⟩ (by decide)).2.2

/-- C4 counterexample: the extend route accepts a negative
`additionalSeconds` (no validation middleware guards it), and a successful
Extend with `additionalSeconds = -1` strictly decreases `expiresAt`
(from 10000 ms to 9000 ms), refuting "Extend never decreases `expiresAt`
for every value the interface accepts". -/
theorem extend_can_decrease_expiry :
    (putExtend [sampleLease] 0 "r"
        { lockedBy := "a", additionalSeconds := some (-1) }).fst.status = 200 ∧
    ∀ l ∈ (putExtend [sampleLease] 0 "r"
        { lockedBy := "a", additionalSeconds := some (-1) }).snd,
      l.expiresAt < sampleLease.expiresAt := by decide

/-- C4 amended: whenever the effective `additionalSeconds` (the body value,
or the default 300 when absent) is nonnegative, a successful Extend never
decreases `expiresAt`; and an absent field means the lease was extended by
exactly 300 seconds. -/
theorem extend_nonneg_monotone (store : Store) (now : Int) (r : String)
    (raw : RawExtendRequest) (hnn : 0 ≤ raw.additionalSeconds.getD 300) :
    ∀ lock ext, (putExtend store now r raw).fst = .extended lock ext →
      (raw.additionalSeconds = none → ext = 300) ∧
      ∃ orig ∈ store, lock = extendLock orig ext ∧ orig.expiresAt ≤ lock.expiresAt := by
  intro lock ext h
  unfold putExtend at h
  cases hfind : store.find? (fun l =>
      l.resourceName == r && l.lockedBy == raw.lockedBy
        && decide (now < l.expiresAt)) with
  | none => rw [hfind] at h; simp at h
  | some found =>
    rw [hfind] at h
    simp only [ExtendResult.extended.injEq] at h
    obtain ⟨hlock, hext⟩ := h
    subst hext
    subst hlock
    refine ⟨fun hnone => by rw [hnone]; rfl,
      found, List.mem_of_find?_eq_some hfind, rfl, ?_⟩
    simp only [extendLock]
    omega

/-- C4 amended witness: extending `sampleLease` with the field absent
succeeds and pushes `expiresAt` forward by the default 300 s. -/
theorem extend_nonneg_monotone_witness :
    (0:Int) ≤ (some (7:Int)).getD 300 ∧
    ∃ orig ∈ [sampleLease],
      extendLock sampleLease 7 = extendLock orig 7 ∧
        orig.expiresAt ≤ (extendLock sampleLease 7).expiresAt :=
  ⟨by decide,
    (extend_nonneg_monotone [sampleLease] 0 "r" ⟨"a", some 7⟩ (by decide)
      (extendLock sampleLease 7) 7 (by decide)).2⟩

/-- C5: ForceRelease returns 403 on a mismatched admin key, leaving the
store untouched and answering identically whatever the store holds (it
performs no store access); on a matching key it deletes the record keyed
by the resource name regardless of its owner or expiry and returns 200. -/
theorem force_unlock_admin_gate (store : Store) (envKey adminKey : Option String)
    (r : String) :
    (adminKey ≠ envKey →
      (forceUnlock store envKey adminKey r).fst = .unauthorized ∧
      (forceUnlock store envKey adminKey r).fst.status = 403 ∧
      (forceUnlock store envKey adminKey r).snd = store ∧
      ∀ store2 : Store, (forceUnlock store2 envKey adminKey r).fst = .unauthorized) ∧
    (adminKey = envKey →
      (∃ l ∈ store, l.resourceName = r) →
        (forceUnlock store envKey adminKey r).fst = .unlocked r ∧
        (forceUnlock store envKey adminKey r).fst.status = 200 ∧
        (forceUnlock store envKey adminKey r).snd
          = store.eraseP (fun l => l.resourceName == r)) := by
  refine ⟨fun hne => ?_, fun heq hex => ?_⟩
  · have h : forceUnlock store envKey adminKey r = (.unauthorized, store) := by
      unfold forceUnlock; rw [if_pos hne]
    refine ⟨by rw [h], by rw [h]; rfl, by rw [h], fun store2 => ?_⟩
    have h2 : forceUnlock store2 envKey adminKey r = (.unauthorized, store2) := by
      unfold forceUnlock; rw [if_pos hne]
    rw [h2]
  · obtain ⟨l, hl, hname⟩ := hex
    have hany : store.any (fun x => x.resourceName == r) = true :=
      List.any_eq_true.mpr ⟨l, hl, by simp [hname]⟩
    have hnot : ¬ adminKey ≠ envKey := by simp [heq]
    have h : forceUnlock store envKey adminKey r
        = (.unlocked r, store.eraseP (fun x => x.resourceName == r)) := by
      unfold forceUnlock; rw [if_neg hnot, if_pos hany]
    exact ⟨by rw [h], by rw [h]; rfl, by rw [h]⟩

/-- C5 witness: a wrong key is refused with 403 without touching the
store; the right key deletes the expired record owned by `"b"` with 200. -/
theorem force_unlock_admin_gate_witness :
    ((some "bad" : Option String) ≠ some "k" ∧
      (forceUnlock [expiredLease] (some "k") (some "bad") "r").fst.status = 403 ∧
      (forceUnlock [expiredLease] (some "k") (some "bad") "r").snd = [expiredLease]) ∧
    ((∃ l ∈ [expiredLease], l.resourceName = "r") ∧
      (forceUnlock [expiredLease] (some "k") (some "k") "r").fst.status = 200) := by
  refine ⟨⟨by decide, ?_, ?_⟩, ⟨⟨expiredLease, by decide, rfl⟩, ?_⟩⟩
  · exact ((force_unlock_admin_gate [expiredLease] (some "k") (some "bad") "r").1
      (by decide)).2.1
  · exact ((force_unlock_admin_gate [expiredLease] (some "k") (some "bad") "r").1
      (by decide)).2.2.1
  · exact ((force_unlock_admin_gate [expiredLease] (some "k") (some "k") "r").2 rfl
      ⟨expiredLease, by decide, rfl⟩).2.1

/-- The `resourceName` rules reject an empty, overlong or ill-charactered
name with at least one message. -/
theorem resourceNameErrors_ne_nil (s : String)
    (h : s.length < 1 ∨ 255 < s.length ∨ ¬ s.toList.all allowedChar) :
    resourceNameErrors (some s) ≠ [] := by
  unfold resourceNameErrors
  intro hc
  simp only [List.append_eq_nil] at hc
  obtain ⟨⟨g1, g2⟩, g3⟩ := hc
  rcases h with h | h | h
  · rw [if_pos h] at g1; exact absurd g1 (by simp)
  · rw [if_pos h] at g2; exact absurd g2 (by simp)
  · rw [if_neg h] at g3; exact absurd g3 (by simp)

/-- The `lockDuration` rules reject a value outside `[1, 86400]`. -/
theorem lockDurationErrors_ne_nil (d : Int) (h : d < 1 ∨ 86400 < d) :
    lockDurationErrors (some d) ≠ [] := by
  unfold lockDurationErrors
  intro hc
  simp only [List.append_eq_nil] at hc
  obtain ⟨g1, g2⟩ := hc
  rcases h with h | h
  · rw [if_pos h] at g1; exact absurd g1 (by simp)
  · rw [if_pos h] at g2; exact absurd g2 (by simp)

/-- C6: a lock request whose `resourceName` is empty, longer than 255 or
outside the allowed character class, or whose `lockDuration` lies outside
`[1, 86400]`, or whose `lockedBy` is empty, is answered 400 with a
non-empty list of field messages and the store is left unchanged: no lease
is created. -/
theorem invalid_lock_request_rejected (store : Store) (now : Int) (id : Nat)
    (raw : RawLockRequest) (ip ua : String)
    (hbad : (∃ s, raw.resourceName = some s ∧
               (s.length < 1 ∨ 255 < s.length ∨ ¬ s.toList.all allowedChar)) ∨
            (∃ d, raw.lockDuration = some d ∧ (d < 1 ∨ 86400 < d)) ∨
            raw.lockedBy = some "") :
    (∃ errs, (postLock store now id raw ip ua).fst = .validationError errs ∧ errs ≠ []) ∧
    (postLock store now id raw ip ua).fst.status = 400 ∧
    (postLock store now id raw ip ua).snd = store := by
  have hne : lockRequestErrors raw ≠ [] := by
    intro hc
    rw [lockRequestErrors] at hc
    simp only [List.append_eq_nil] at hc
    obtain ⟨⟨⟨⟨⟨h1, h2⟩, h3⟩, h4⟩, h5⟩, h6⟩ := hc
    rcases hbad with ⟨s, hs, hcase⟩ | ⟨d, hd, hcase⟩ | hlb
    · exact resourceNameErrors_ne_nil s hcase (hs ▸ h1)
    · exact lockDurationErrors_ne_nil d hcase (hd ▸ h3)
    · exact absurd (hlb ▸ h2) (by decide)
  have hval : validateLockRequest raw = .error (lockRequestErrors raw) := by
    unfold validateLockRequest
    cases herrs : lockRequestErrors raw with
    | nil => exact absurd herrs hne
    | cons e rest => rfl
  have h : postLock store now id raw ip ua
      = (.validationError (lockRequestErrors raw), store) := by
    unfold postLock; rw [hval]
  exact ⟨⟨lockRequestErrors raw, by rw [h], hne⟩, by rw [h]; rfl, by rw [h]⟩

/-- C6 witness: an empty `resourceName` is rejected with 400 and leaves an
empty store empty. -/
theorem invalid_lock_request_rejected_witness :
    ((∃ s, (some "" : Option String) = some s ∧
        (s.length < 1 ∨ 255 < s.length ∨ ¬ s.toList.all allowedChar))) ∧
    (postLock [] 0 1
      { resourceName := some "", lockedBy := some "a", lockDuration := none,
        lockType := none, purpose := none, sessionId := none } "ip" "ua").fst.status = 400 ∧
    (postLock [] 0 1
      { resourceName := some "", lockedBy := some "a", lockDuration := none,
        lockType := none, purpose := none, sessionId := none } "ip" "ua").snd = [] := by
  refine ⟨⟨"", rfl, Or.inl (by decide)⟩, ?_, ?_⟩
  · exact (invalid_lock_request_rejected [] 0 1
      { resourceName := some "", lockedBy := some "a", lockDuration := none,
        lockType := none, purpose := none, sessionId := none } "ip" "ua"
      (Or.inl ⟨"", rfl, Or.inl (by decide)⟩)).2.1
  · exact (invalid_lock_request_rejected [] 0 1
      { resourceName := some "", lockedBy := some "a", lockDuration := none,
        lockType := none, purpose := none, sessionId := none } "ip" "ua"
      (Or.inl ⟨"", rfl, Or.inl (by decide)⟩)).2.2

/-- The §8 scenario's acquisition request: `cache-flush` by `worker-C`
for 1 second. -/
def cacheFlushRequest : RawLockRequest :=
  { resourceName := some "cache-flush", lockedBy := some "worker-C",
    lockDuration := some 1, lockType := none, purpose := none, sessionId := none }

/-- C7 counterexample: acquire `cache-flush` for 1 s at t = 0, and at
t = 2000 ms (expired, `GetStatus` already reports Available) issue a
ForceRelease with the correct admin key while the 60 s sweep has not yet
run.  `deleteOne({ resourceName })` still finds the physical record, so
the call returns 200, not the 404 the claim states. -/
theorem force_unlock_expired_returns_200 :
    (postLock [] 0 1 cacheFlushRequest "ip" "ua").fst.status = 201 ∧
    getStatus (postLock [] 0 1 cacheFlushRequest "ip" "ua").snd 2000 "cache-flush"
      = .available "cache-flush" ∧
    (forceUnlock (postLock [] 0 1 cacheFlushRequest "ip" "ua").snd
      (some "admin-key") (some "admin-key") "cache-flush").fst.status = 200 := by
  decide

/-- C7 amended: in the same scenario the outcome depends on whether the
periodic sweep already deleted the expired record: after a sweep at
t = 2000 ms the ForceRelease returns 404, while without an intervening
sweep it returns 200 (and deletes the expired record itself). -/
theorem force_unlock_expired_depends_on_sweep :
    (forceUnlock (sweep (postLock [] 0 1 cacheFlushRequest "ip" "ua").snd 2000).fst
      (some "admin-key") (some "admin-key") "cache-flush").fst.status = 404 ∧
    (forceUnlock (postLock [] 0 1 cacheFlushRequest "ip" "ua").snd
      (some "admin-key") (some "admin-key") "cache-flush").fst.status = 200 := by
  decide

/-- C8: an active lease of any class on a resource makes every Acquire on
that resource answer Conflict (409) and leave the store unchanged; the
lease classes of holder and requester play no role in the arbitration. -/
theorem any_class_blocks_acquire (store : Store) (now : Int) (id : Nat)
    (body : LockRequestBody) (ip ua : String) (holder : Lease)
    (_hc1 : holder.lockType = "read" ∨ holder.lockType = "write"
      ∨ holder.lockType = "exclusive")
    (_hc2 : body.lockType = "read" ∨ body.lockType = "write"
      ∨ body.lockType = "exclusive")
    (hmem : holder ∈ store) (hname : holder.resourceName = body.resourceName)
    (hactive : now < holder.expiresAt) :
    (lockRoute store store now id body ip ua).fst.status = 409 ∧
    (lockRoute store store now id body ip ua).snd = store := by
  have hfind : getLockInfo store now body.resourceName ≠ none := by
    unfold getLockInfo
    intro hn
    have := List.find?_eq_none.mp hn holder hmem
    simp [hname, hactive] at this
  cases hfind2 : getLockInfo store now body.resourceName with
  | none => exact absurd hfind2 hfind
  | some existing =>
    unfold lockRoute
    rw [hfind2]
    exact ⟨rfl, rfl⟩

/-- A `write`-class holder of `"r"`. -/
def writeLease : Lease :=
  { sampleLease with id := 3, lockType := "write", lockedBy := "w" }

/-- A `read`-class request for `"r"`. -/
def readBody : LockRequestBody :=
  { sampleBody with lockType := "read" }

/-- C8 witness: a `write` holder blocks a `read` acquisition with 409. -/
theorem any_class_blocks_acquire_witness :
    (writeLease.lockType = "read" ∨ writeLease.lockType = "write"
      ∨ writeLease.lockType = "exclusive") ∧
    (readBody.lockType = "read" ∨ readBody.lockType = "write"
      ∨ readBody.lockType = "exclusive") ∧
    writeLease ∈ [writeLease] ∧
    writeLease.resourceName = readBody.resourceName ∧
    (0:Int) < writeLease.expiresAt ∧
    (lockRoute [writeLease] [writeLease] 0 9 readBody "ip" "ua").fst.status = 409 := by
  refine ⟨by decide, by decide, by decide, by decide, by decide, ?_⟩
  exact (any_class_blocks_acquire [writeLease] 0 9 readBody "ip" "ua" writeLease
    (by decide) (by decide) (by decide) (by decide) (by decide)).1

/-- C9: the sweep retains exactly the records with `expiresAt ≥ now`
(it deletes exactly those with `expiresAt < now`), and a second sweep at
`t2 ≥ t1` with no lease crossing its expiry in between deletes zero
records. -/
theorem sweep_exact_and_idempotent (store : Store) (t1 t2 : Int) (_hle : t1 ≤ t2)
    (hnocross : ∀ l ∈ store, ¬ (t1 ≤ l.expiresAt ∧ l.expiresAt < t2)) :
    (∀ l ∈ store, (l ∈ (sweep store t1).fst ↔ t1 ≤ l.expiresAt)) ∧
    (sweep (sweep store t1).fst t2).snd = 0 := by
  constructor
  · intro l hl
    constructor
    · intro hin
      have := List.of_mem_filter hin
      simp only [Bool.not_eq_eq_eq_not, Bool.not_true, decide_eq_false_iff_not,
        not_lt] at this
      exact this
    · intro hge
      refine List.mem_filter.mpr ⟨hl, ?_⟩
      simp only [Bool.not_eq_eq_eq_not, Bool.not_true, decide_eq_false_iff_not, not_lt]
      exact hge
  · unfold sweep
    rw [List.countP_eq_zero]
    intro l hl
    have hl' : l ∈ store := List.mem_of_mem_filter hl
    have h1 := List.of_mem_filter hl
    simp only [Bool.not_eq_eq_eq_not, Bool.not_true, decide_eq_false_iff_not,
      not_lt] at h1
    have h2 := hnocross l hl'
    simp only [decide_eq_true_eq]
    omega

/-- C9 witness: sweeping at t = 20000 ms removes the expired record; the
immediate second sweep removes nothing. -/
theorem sweep_exact_and_idempotent_witness :
    (20000 : Int) ≤ 20000 ∧
    (∀ l ∈ [sampleLease, expiredLease],
      ¬ ((20000:Int) ≤ l.expiresAt ∧ l.expiresAt < 20000)) ∧
    (sweep (sweep [sampleLease, expiredLease] 20000).fst 20000).snd = 0 :=
  ⟨le_refl _, by decide,
    (sweep_exact_and_idempotent [sampleLease, expiredLease] 20000 20000
      (le_refl _) (by decide)).2⟩

/-- A lock body whose optional fields were all omitted. -/
def omitOptional (name owner : String) : RawLockRequest :=
  { resourceName := some name, lockedBy := some owner, lockDuration := none,
    lockType := none, purpose := none, sessionId := none }

/-- The body the validation layer produces for `omitOptional`: every
schema default filled in. -/
def defaultedBody (name owner : String) : LockRequestBody :=
  { resourceName := name, lockedBy := owner, lockDuration := 300,
    lockType := "exclusive", purpose := "", sessionId := "" }

/-- C10: a valid Acquire that omits every optional field creates a lease
with the defaults `lockDuration = 300`, `lockType = "exclusive"`, empty
`purpose` and `sessionId`, and `expiresAt` exactly 300 s (300000 ms) after
the acquisition instant. -/
theorem acquire_defaults (store : Store) (now : Int) (id : Nat)
    (name owner ip ua : String)
    (hn1 : 1 ≤ name.length) (hn2 : name.length ≤ 255)
    (hn3 : name.toList.all allowedChar)
    (ho1 : 1 ≤ owner.length) (ho2 : owner.length ≤ 100)
    (hfree : ∀ l ∈ store, l.resourceName ≠ name) :
    (postLock store now id (omitOptional name owner) ip ua).fst
      = .created (mkLease id now (defaultedBody name owner) ip ua) ∧
    ∀ l, (postLock store now id (omitOptional name owner) ip ua).fst = .created l →
      l.lockDuration = 300 ∧ l.lockType = "exclusive" ∧ l.purpose = "" ∧
        l.sessionId = "" ∧ l.expiresAt = now + 300 * 1000 := by
  have herr : lockRequestErrors (omitOptional name owner) = [] := by
    unfold lockRequestErrors omitOptional resourceNameErrors lockedByErrors
      lockDurationErrors lockTypeErrors purposeErrors sessionIdErrors
    dsimp only
    rw [if_neg (by omega : ¬ name.length < 1),
      if_neg (by omega : ¬ 255 < name.length), if_pos hn3,
      if_neg (by omega : ¬ owner.length < 1),
      if_neg (by omega : ¬ 100 < owner.length)]
    rfl
  have hval : validateLockRequest (omitOptional name owner)
      = .ok (defaultedBody name owner) := by
    unfold validateLockRequest
    rw [herr]
    rfl
  have hpre : getLockInfo store now (defaultedBody name owner).resourceName = none :=
    List.find?_eq_none.mpr (fun l hl => by
      simp [defaultedBody, hfree l hl])
  have hins : store.any (fun x =>
      x.resourceName
        == (mkLease id now (defaultedBody name owner) ip ua).resourceName) = false := by
    rw [List.any_eq_false]
    intro x hx
    simp [mkLease, defaultedBody, hfree x hx]
  have hmain : postLock store now id (omitOptional name owner) ip ua
      = (.created (mkLease id now (defaultedBody name owner) ip ua),
          mkLease id now (defaultedBody name owner) ip ua :: store) := by
    unfold postLock
    rw [hval]
    unfold lockRoute
    dsimp only
    rw [hpre]
    unfold insertIfAbsent
    dsimp only
    rw [hins]
    rfl
  refine ⟨by rw [hmain], fun l hl => ?_⟩
  rw [hmain] at hl
  simp only [LockResult.created.injEq] at hl
  subst hl
  exact ⟨rfl, rfl, rfl, rfl, rfl⟩

/-- C10 witness: acquiring `"job-1"` with only the required fields at
t = 5 ms yields the fully-defaulted lease. -/
theorem acquire_defaults_witness :
    1 ≤ ("job-1" : String).length ∧ ("job-1" : String).length ≤ 255 ∧
    ("job-1" : String).toList.all allowedChar = true ∧
    1 ≤ ("w1" : String).length ∧ ("w1" : String).length ≤ 100 ∧
    (∀ l ∈ ([] : Store), l.resourceName ≠ "job-1") ∧
    (postLock [] 5 1 (omitOptional "job-1" "w1") "ip" "ua").fst
      = .created (mkLease 1 5 (defaultedBody "job-1" "w1") "ip" "ua") := by
  refine ⟨by decide, by decide, by decide, by decide, by decide, by decide, ?_⟩
  exact (acquire_defaults [] 5 1 "job-1" "w1" "ip" "ua" (by decide) (by decide)
    (by decide) (by decide) (by decide) (by decide)).1

end ResourceLocking
